import Mathlib

/-!
Verification development for `src/promises/AbortablePromise.ts`.

The file gives a shallow embedding of the constructor wiring, the abort
coordination, the cleanup list and the chaining operations of the
`AbortablePromise` class, and proves / refutes the frozen claims about it.

Modelling conventions:
* The internal state of one `AbortablePromise` (the closure created by the
  constructor's `super(...)` executor) is a `RootState` record.  Machine
  effects are explicit state-passing functions `RootState → RootState`.
* The underlying JS `Promise` resolve/reject capabilities (`res`/`rej`) are
  single-assignment: a second call is a no-op (`rawRes` / `rawRej`).
* `AbortController` / `AbortSignal` semantics: `controller.abort(reason)` is
  a no-op when already aborted, otherwise it stores the reason and dispatches
  the abort event to the listeners in registration order.  A listener added
  by `addEventListener` AFTER the signal aborted is never invoked (the abort
  event is dispatched exactly once, at the abort transition) — this is host
  runtime behaviour the source relies on.
* Executor-registered abort listeners are modelled as opaque observers whose
  invocations are logged in `firedLog`; the internal `rejectOnAbort`
  listener (`onAborted(rej)`, source line 162) is modelled explicitly as the
  listener kind `LKind.rejL` whose invocation performs the raw settlement
  reject with the dispatched abort reason.
* Cleanup actions (`cleanupFns`) are modelled by the inductive `CleanupK`
  with their effects, and every execution of a cleanup action is logged in
  `cleanupLog` so that "exactly once" statements can be expressed.
* Asynchronous scheduling is abstracted: timer expiry, an external signal
  firing, and the rejection of an inner promise returned by the executor are
  explicit post-construction events (`timerFire`, `extFire`, `innerRejects`).
-/

/-- JavaScript values appearing as promise results, rejection reasons and
abort reasons in the verified scenarios.  `resolvedTag v` is the marker
produced by the resolution-tagging helper (see `withResolved`);
`timeoutErr ms` models `new TimeoutError(ms)` and `cancelledErr` models
`new CancelledError()` (both are plain data carriers, spec section 6);
`undef` is JavaScript `undefined`. -/
inductive Val : Type
  | str (s : String)
  | num (n : Int)
  | timeoutErr (ms : Int)
  | cancelledErr
  | resolvedTag (v : Val)
  | undef
  deriving DecidableEq

/-- Modelled from the spec: the Resolution Tagging collaborator
(`resolve.ts`, spec section 4.7, not under `src/`).  `withResolved value`
builds the tagged marker carrying the fulfilled value; the source reads the
carried value back by indexing into the marker (`reason[1]`). -/
def withResolved (v : Val) : Val := Val.resolvedTag v

/-- Modelled from the spec: the Resolution Tagging predicate
(`isPromiseResolveResult`, spec section 4.7, not under `src/`): true exactly
on markers produced by `withResolved`. -/
def isPromiseResolveResult : Val → Bool
  | .resolvedTag _ => true
  | _ => false

/-- Settlement state of the underlying promise: terminal and assigned at
most once. -/
inductive Settlement : Type
  | pending
  | fulfilled (v : Val)
  | rejected (r : Val)
  deriving DecidableEq

/-- Kinds of abort listeners registered on the internal signal.
`rejL` is the raw settlement reject `rej` registered by
`rejectOnAbort && onAborted(rej)` (source line 162); `userL uid` is an
executor-registered observer (via the context's `onAborted`), modelled as a
pure observer whose invocation is logged. -/
inductive LKind : Type
  | rejL
  | userL (uid : Nat)
  deriving DecidableEq

/-- Cleanup actions pushed onto `cleanupFns`:
`detachL lid` removes the abort listener with id `lid` from the internal
signal (pushed by `onAborted`, source lines 121-124); `detachBridge` removes
the bridge listener from the external signal (source lines 154-156);
`cancelTimer` clears the timeout timer (source lines 172-174). -/
inductive CleanupK : Type
  | detachL (lid : Nat)
  | detachBridge
  | cancelTimer
  deriving DecidableEq

/-- The mutable state captured by one `AbortablePromise` constructor run:
the underlying settlement, the `AbortController` signal state (`abortedR`),
the listeners on the internal signal, the cleanup list (plus a log of every
cleanup execution), a log of opaque user-listener invocations, a fresh-id
counter for listener registrations, whether a bridge listener sits on the
external signal, the pending-timer state, whether the executor was invoked,
and whether a `result.catch(reject)` handler was attached to a returned
inner promise. -/
structure RootState : Type where
  settlement : Settlement
  abortedR : Option Val
  listeners : List (Nat × LKind)
  cleanupFns : List CleanupK
  cleanupLog : List CleanupK
  firedLog : List (Nat × Val)
  nextLid : Nat
  bridged : Bool
  timerActive : Bool
  timerDur : Int
  executorInvoked : Bool
  innerAttached : Bool
  deriving DecidableEq

/-- State at the start of the constructor body. -/
def initState : RootState :=
  { settlement := Settlement.pending, abortedR := none, listeners := [],
    cleanupFns := [], cleanupLog := [], firedLog := [], nextLid := 0,
    bridged := false, timerActive := false, timerDur := 0,
    executorInvoked := false, innerAttached := false }

/-- Raw `res` capability of the underlying promise: single assignment,
a call on a settled promise is a no-op. -/
def rawRes (v : Val) (s : RootState) : RootState :=
  match s.settlement with
  | .pending => { s with settlement := Settlement.fulfilled v }
  | _ => s

/-- Raw `rej` capability of the underlying promise: single assignment,
a call on a settled promise is a no-op. -/
def rawRej (r : Val) (s : RootState) : RootState :=
  match s.settlement with
  | .pending => { s with settlement := Settlement.rejected r }
  | _ => s

/-- Dispatch of the abort event to one listener.  The wrapped listener
created by `onAborted` calls the user listener with `abortReason()`, which
at dispatch time equals the dispatched reason `r`.  The `rejL` listener is
the raw settlement reject. -/
def fireOne (r : Val) (s : RootState) (p : Nat × LKind) : RootState :=
  match p.2 with
  | .rejL => rawRej r s
  | .userL uid => { s with firedLog := s.firedLog ++ [(uid, r)] }

/-- Dispatch of the abort event to all currently registered listeners, in
registration order. -/
def fireListeners (r : Val) (s : RootState) : RootState :=
  s.listeners.foldl (fireOne r) s

/-- The internal `abort` closure (source lines 111-113):
`reason => { !signal.aborted && controller.abort(reason); }`.  A no-op when
the signal is already aborted; otherwise stores the reason and dispatches to
the listeners.  This closure is also assigned to `this.abort`
(source line 216). -/
def abortFn (r : Val) (s : RootState) : RootState :=
  match s.abortedR with
  | some _ => s
  | none => fireListeners r { s with abortedR := some r }

/-- Execution of one cleanup action; every execution is appended to
`cleanupLog`. -/
def runCleanup1 (s : RootState) (c : CleanupK) : RootState :=
  let s1 :=
    match c with
    | .detachL lid => { s with listeners := s.listeners.filter (fun p => p.1 != lid) }
    | .detachBridge => { s with bridged := false }
    | .cancelTimer => { s with timerActive := false }
  { s1 with cleanupLog := s1.cleanupLog ++ [c] }

/-- The drain performed by `withCleanup` (source lines 95-103):
`cleanupFns.forEach(fn => fn())`.  Note: the source does NOT clear the list
afterwards. -/
def runCleanups (s : RootState) : RootState :=
  s.cleanupFns.foldl runCleanup1 s

/-- The enhanced `resolve` passed to the executor (source lines 129-132):
`withCleanup(result => { res(result); abort(withResolved(result)); })`. -/
def resolveFn (v : Val) (s : RootState) : RootState :=
  runCleanups (abortFn (withResolved v) (rawRes v s))

/-- The enhanced `reject` (source lines 133-136), also assigned to
`this.reject` (source line 217):
`withCleanup(reason => { rej(reason); abort(reason); })`. -/
def rejectFn (r : Val) (s : RootState) : RootState :=
  runCleanups (abortFn r (rawRej r s))

/-- `onAborted` (source lines 115-126): adds the wrapped listener to the
internal signal and pushes its removal onto `cleanupFns`, returning the
removal handle. -/
def regListener (k : LKind) (s : RootState) : RootState :=
  { s with listeners := s.listeners ++ [(s.nextLid, k)],
           cleanupFns := s.cleanupFns ++ [CleanupK.detachL s.nextLid],
           nextLid := s.nextLid + 1 }

/-- `context.onAborted(listener)` for an executor-supplied listener,
modelled as the opaque observer `uid`. -/
def ctxOnAborted (uid : Nat) (s : RootState) : RootState :=
  regListener (LKind.userL uid) s

/-- `context.isAborted()` (source line 178). -/
def isAborted (s : RootState) : Bool := s.abortedR.isSome

/-- `context.abortReason()` (source line 114): `signal.reason`, which is
`undefined` before the signal aborts. -/
def abortReason (s : RootState) : Val := s.abortedR.getD Val.undef

/-- `context.isResolved()` (source line 179). -/
def isResolvedCtx (s : RootState) : Bool := isPromiseResolveResult (abortReason s)

/-- `context.resolved()` (source lines 180-183): the carried value when the
abort reason is a resolution marker, else `undefined` (modelled as
`none`). -/
def resolvedCtx (s : RootState) : Option Val :=
  match abortReason s with
  | .resolvedTag v => some v
  | _ => none

/-- `cancel()` (source lines 233-235): `this.abort(new CancelledError())`. -/
def cancelFn (s : RootState) : RootState := abortFn Val.cancelledErr s

/-- An externally owned `AbortSignal` passed via options, as observed at
construction time: `abortedReason = some r` when it is already aborted with
reason `r`. -/
structure ExtSig : Type where
  abortedReason : Option Val
  deriving DecidableEq

/-- The `PromiseOptions` configuration (`abortSignal?`, `rejectOnAbort?`
defaulting to `true` — source line 140 — and `timeout?`).  The JS `number`
timeout is modelled as `Option Int`. -/
structure PromiseOptions : Type where
  abortSignal : Option ExtSig := none
  rejectOnAbort : Bool := true
  timeout : Option Int := none
  deriving DecidableEq

/-- Outcome of the executor call: it returned normally, threw synchronously,
or returned a promise (`result instanceof Promise`, source line 206). -/
inductive ExecRet : Type
  | ret
  | thrown (e : Val)
  | retPromise

/-- An executor is modelled as an arbitrary transformer of the internal
state (everything it can do — call the enhanced resolve/reject, register
context listeners, probe the context — is a state operation) together with
how its invocation ends. -/
def ExecutorM : Type := RootState → RootState × ExecRet

/-- Source lines 184-213: invoke the executor inside `try`; a synchronous
throw is turned into `reject(e)`; a returned promise gets
`result.catch(reject)` attached. -/
def runExec (exec : Option ExecutorM) (s : RootState) : RootState :=
  match exec with
  | none => s
  | some f =>
      match f { s with executorInvoked := true } with
      | (s2, .ret) => s2
      | (s2, .thrown e) => rejectFn e s2
      | (s2, .retPromise) => { s2 with innerAttached := true }

/-- Source line 162: `rejectOnAbort && onAborted(rej)`. -/
def wireRejectOnAbort (opts : PromiseOptions) (s : RootState) : RootState :=
  if opts.rejectOnAbort then regListener LKind.rejL s else s

/-- Source lines 166-175: `if (timeout) { ... setTimeout ... }`.  Note the
truthiness test: any nonzero duration (negative included) starts the
timer. -/
def wireTimeout (opts : PromiseOptions) (s : RootState) : RootState :=
  match opts.timeout with
  | none => s
  | some t =>
      if t = 0 then s
      else { s with timerActive := true, timerDur := t,
                    cleanupFns := s.cleanupFns ++ [CleanupK.cancelTimer] }

/-- Source lines 149-156 (live external signal): attach the bridge listener
on the external signal and push its removal onto `cleanupFns`. -/
def attachBridge (s : RootState) : RootState :=
  { s with bridged := true,
           cleanupFns := s.cleanupFns ++ [CleanupK.detachBridge] }

/-- The constructor body (source lines 76-218).  Order of effects:
process `abortSignal` (with the early `return reject(reason)` on a
pre-aborted signal under `rejectOnAbort`, source line 145); register the
`rejectOnAbort` listener; start the timeout timer; invoke the executor. -/
def construct (exec : Option ExecutorM) (opts : PromiseOptions) : RootState :=
  match opts.abortSignal with
  | none => runExec exec (wireTimeout opts (wireRejectOnAbort opts initState))
  | some ext =>
      match ext.abortedReason with
      | none => runExec exec (wireTimeout opts (wireRejectOnAbort opts (attachBridge initState)))
      | some r =>
          if opts.rejectOnAbort then rejectFn r initState
          else runExec exec (wireTimeout opts (wireRejectOnAbort opts (abortFn r initState)))

/-- Post-construction event: the external signal aborts with reason `r`.
The bridge listener (source lines 150-153) calls `abort(abortSignal.reason)`
while attached. -/
def extFire (r : Val) (s : RootState) : RootState :=
  if s.bridged then abortFn r s else s

/-- Post-construction event: the timeout timer elapses and its callback
`abort(new TimeoutError(timeout))` runs (source lines 168-170). -/
def timerFire (s : RootState) : RootState :=
  if s.timerActive then abortFn (Val.timeoutErr s.timerDur) { s with timerActive := false }
  else s

/-- Post-construction event: the inner promise returned by the executor
rejects with `r`; the `result.catch(reject)` handler (source line 207) calls
the enhanced reject. -/
def innerRejects (r : Val) (s : RootState) : RootState :=
  if s.innerAttached then rejectFn r s else s

/-- The internal `rejectOnAbort` listener is registered on the signal. -/
@[reducible] def hasRejL (s : RootState) : Prop :=
  ∃ p ∈ s.listeners, p.2 = LKind.rejL

/-- No `rejectOnAbort` listener is registered on the signal. -/
@[reducible] def noRejL (s : RootState) : Prop :=
  ∀ p ∈ s.listeners, p.2 ≠ LKind.rejL

/-! ## Continuation chaining

`then` / `catch` / `finally` (source lines 240-287) return a derived
`AbortablePromise` whose own `abort` / `reject` fields are overwritten by
`reassignProps` (source lines 15-22) with the fields of the promise they
were derived from.  A `ChainTask` records which chain of continuation
handlers derives its settlement from the root (`ops`) and whose control
closures its `abort` / `reject` fields currently hold (`ctrl`, an id: the
root promise has id `rid`, each derived promise is created with a fresh id
for its own closures before `reassignProps` overwrites it).  The settlement
of a derived promise, once the event loop has quiesced, is the fold of
standard promise handler semantics over the root's settlement
(`settleOf`). -/

/-- A continuation handler: returns a value (`Except.ok`) or throws
(`Except.error`). -/
def Handler : Type := Val → Except Val Val

/-- One chaining operation: `thenOp` with optional fulfillment/rejection
handlers, or `finallyOp` whose callback either is absent / returns normally
(`none`) or throws (`some e`). -/
inductive ChainOp : Type
  | thenOp (onF : Option Handler) (onR : Option Handler)
  | finallyOp (thrownE : Option Val)

/-- Settlement resulting from a handler call. -/
def ofExcept : Except Val Val → Settlement
  | .ok v => Settlement.fulfilled v
  | .error e => Settlement.rejected e

/-- Standard promise semantics of one chain link applied to the parent's
settlement. -/
def settleLink (st : Settlement) (op : ChainOp) : Settlement :=
  match op, st with
  | _, .pending => Settlement.pending
  | .thenOp onF _, .fulfilled v =>
      match onF with
      | none => Settlement.fulfilled v
      | some f => ofExcept (f v)
  | .thenOp _ onR, .rejected r =>
      match onR with
      | none => Settlement.rejected r
      | some g => ofExcept (g r)
  | .finallyOp fin, st0 =>
      match fin with
      | none => st0
      | some e => Settlement.rejected e

/-- A task object in a continuation chain: `ops` is the list of chain links
between the root promise and this object; `ctrl` identifies whose
`abort`/`reject` closures this object's fields hold. -/
structure ChainTask : Type where
  ops : List ChainOp
  ctrl : Nat

/-- A root `AbortablePromise` with closure id `rid`: its `abort`/`reject`
fields hold its own closures. -/
def rootTask (rid : Nat) : ChainTask := { ops := [], ctrl := rid }

/-- `reassignProps` (source lines 15-22): copy the parent's current
`reject` and `abort` fields onto the child. -/
def reassignProps (child parentP : ChainTask) : ChainTask :=
  { child with ctrl := parentP.ctrl }

/-- `then` (source lines 267-287): the derived promise is created with its
own fresh closures (`fresh`), then `reassignProps` rebinds them to the
parent's. -/
def thenC (fresh : Nat) (p : ChainTask) (onF onR : Option Handler) : ChainTask :=
  reassignProps { ops := p.ops ++ [ChainOp.thenOp onF onR], ctrl := fresh } p

/-- `catch` (source lines 240-244): `this.then(undefined, onRejected)`. -/
def catchC (fresh : Nat) (p : ChainTask) (onR : Handler) : ChainTask :=
  thenC fresh p none (some onR)

/-- `finally` (source lines 249-252), with `reassignProps` applied just as
in `then`. -/
def finallyC (fresh : Nat) (p : ChainTask) (thrownE : Option Val) : ChainTask :=
  reassignProps { ops := p.ops ++ [ChainOp.finallyOp thrownE], ctrl := fresh } p

/-- Descriptor of one chaining call, for quantifying over arbitrary
chains. -/
inductive ChainStepD : Type
  | dThen (onF onR : Option Handler)
  | dCatch (onR : Handler)
  | dFinally (thrownE : Option Val)

/-- Apply one chaining call. -/
def applyStep (fresh : Nat) (p : ChainTask) : ChainStepD → ChainTask
  | .dThen f g => thenC fresh p f g
  | .dCatch g => catchC fresh p g
  | .dFinally e => finallyC fresh p e

/-- Apply a sequence of chaining calls, drawing a fresh closure id for each
derived promise. -/
def applyChain (fresh : Nat) (p : ChainTask) : List ChainStepD → ChainTask
  | [] => p
  | d :: ds => applyChain (fresh + 1) (applyStep fresh p d) ds

/-- Settlement of a chain task once propagation from the root has
quiesced. -/
def settleOf (t : ChainTask) (s : RootState) : Settlement :=
  t.ops.foldl settleLink s.settlement

/-- The handler `x => x + 1` from the chaining scenario (acting on numeric
values). -/
def incHandler : Handler :=
  fun v =>
    match v with
    | .num n => Except.ok (Val.num (n + 1))
    | w => Except.ok w

/-- A trivial executor that does nothing and returns normally. -/
def execTriv : ExecutorM := fun s => (s, ExecRet.ret)

/-! ## Helper lemmas -/

/-- A fold preserves any projection that every step preserves. -/
theorem foldl_fix {α σ γ : Type} (f : σ → α → σ) (pr : σ → γ)
    (h : ∀ s a, pr (f s a) = pr s) :
    ∀ (l : List α) (s : σ), pr (l.foldl f s) = pr s
  | [], _ => rfl
  | a :: l, s => by
      rw [List.foldl_cons, foldl_fix f pr h l (f s a), h]

theorem rawRes_abortedR (v : Val) (s : RootState) :
    (rawRes v s).abortedR = s.abortedR := by
  unfold rawRes; split <;> rfl

theorem rawRes_listeners (v : Val) (s : RootState) :
    (rawRes v s).listeners = s.listeners := by
  unfold rawRes; split <;> rfl

theorem rawRes_cleanupFns (v : Val) (s : RootState) :
    (rawRes v s).cleanupFns = s.cleanupFns := by
  unfold rawRes; split <;> rfl

theorem rawRes_cleanupLog (v : Val) (s : RootState) :
    (rawRes v s).cleanupLog = s.cleanupLog := by
  unfold rawRes; split <;> rfl

theorem rawRes_settlement_pending (v : Val) (s : RootState)
    (h : s.settlement = Settlement.pending) :
    (rawRes v s).settlement = Settlement.fulfilled v := by
  unfold rawRes; rw [h]

theorem rawRej_abortedR (r : Val) (s : RootState) :
    (rawRej r s).abortedR = s.abortedR := by
  unfold rawRej; split <;> rfl

theorem rawRej_listeners (r : Val) (s : RootState) :
    (rawRej r s).listeners = s.listeners := by
  unfold rawRej; split <;> rfl

theorem rawRej_cleanupFns (r : Val) (s : RootState) :
    (rawRej r s).cleanupFns = s.cleanupFns := by
  unfold rawRej; split <;> rfl

theorem rawRej_cleanupLog (r : Val) (s : RootState) :
    (rawRej r s).cleanupLog = s.cleanupLog := by
  unfold rawRej; split <;> rfl

theorem rawRej_settlement_pending (r : Val) (s : RootState)
    (h : s.settlement = Settlement.pending) :
    (rawRej r s).settlement = Settlement.rejected r := by
  unfold rawRej; rw [h]

theorem rawRej_eq_of_ne (r : Val) (s : RootState)
    (h : s.settlement ≠ Settlement.pending) : rawRej r s = s := by
  unfold rawRej
  cases hs : s.settlement with
  | pending => exact absurd hs h
  | fulfilled v => rfl
  | rejected r0 => rfl

theorem fireOne_abortedR (r : Val) (s : RootState) (p : Nat × LKind) :
    (fireOne r s p).abortedR = s.abortedR := by
  obtain ⟨a, k⟩ := p
  cases k with
  | rejL => exact rawRej_abortedR r s
  | userL uid => rfl

theorem fireOne_listeners (r : Val) (s : RootState) (p : Nat × LKind) :
    (fireOne r s p).listeners = s.listeners := by
  obtain ⟨a, k⟩ := p
  cases k with
  | rejL => exact rawRej_listeners r s
  | userL uid => rfl

theorem fireOne_cleanupFns (r : Val) (s : RootState) (p : Nat × LKind) :
    (fireOne r s p).cleanupFns = s.cleanupFns := by
  obtain ⟨a, k⟩ := p
  cases k with
  | rejL => exact rawRej_cleanupFns r s
  | userL uid => rfl

theorem fireOne_cleanupLog (r : Val) (s : RootState) (p : Nat × LKind) :
    (fireOne r s p).cleanupLog = s.cleanupLog := by
  obtain ⟨a, k⟩ := p
  cases k with
  | rejL => exact rawRej_cleanupLog r s
  | userL uid => rfl

theorem fireOne_settlement_stable (r : Val) (s : RootState) (p : Nat × LKind)
    (h : s.settlement ≠ Settlement.pending) :
    (fireOne r s p).settlement = s.settlement := by
  obtain ⟨a, k⟩ := p
  cases k with
  | rejL => show (rawRej r s).settlement = s.settlement; rw [rawRej_eq_of_ne r s h]
  | userL uid => rfl

theorem fireFold_abortedR (r : Val) (l : List (Nat × LKind)) (s : RootState) :
    (l.foldl (fireOne r) s).abortedR = s.abortedR :=
  foldl_fix (fireOne r) (fun u => u.abortedR) (fun u p => fireOne_abortedR r u p) l s

theorem fireFold_listeners (r : Val) (l : List (Nat × LKind)) (s : RootState) :
    (l.foldl (fireOne r) s).listeners = s.listeners :=
  foldl_fix (fireOne r) (fun u => u.listeners) (fun u p => fireOne_listeners r u p) l s

theorem fireFold_cleanupFns (r : Val) (l : List (Nat × LKind)) (s : RootState) :
    (l.foldl (fireOne r) s).cleanupFns = s.cleanupFns :=
  foldl_fix (fireOne r) (fun u => u.cleanupFns) (fun u p => fireOne_cleanupFns r u p) l s

theorem fireFold_cleanupLog (r : Val) (l : List (Nat × LKind)) (s : RootState) :
    (l.foldl (fireOne r) s).cleanupLog = s.cleanupLog :=
  foldl_fix (fireOne r) (fun u => u.cleanupLog) (fun u p => fireOne_cleanupLog r u p) l s

theorem fireFold_settlement_stable (r : Val) (l : List (Nat × LKind)) :
    ∀ s : RootState, s.settlement ≠ Settlement.pending →
      (l.foldl (fireOne r) s).settlement = s.settlement := by
  induction l with
  | nil => intro s h; rfl
  | cons p l ih =>
      intro s h
      have h1 : (fireOne r s p).settlement = s.settlement :=
        fireOne_settlement_stable r s p h
      rw [List.foldl_cons, ih (fireOne r s p) (by rw [h1]; exact h), h1]

theorem fireFold_settlement_rejL (r : Val) (l : List (Nat × LKind)) :
    ∀ s : RootState, s.settlement = Settlement.pending →
      (∃ p ∈ l, p.2 = LKind.rejL) →
      (l.foldl (fireOne r) s).settlement = Settlement.rejected r := by
  induction l with
  | nil =>
      intro s hp he
      obtain ⟨p, hm, _⟩ := he
      exact absurd hm (List.not_mem_nil p)
  | cons q l ih =>
      intro s hp he
      rw [List.foldl_cons]
      by_cases hq : q.2 = LKind.rejL
      · have h1 : (fireOne r s q).settlement = Settlement.rejected r := by
          obtain ⟨a, k⟩ := q
          cases k with
          | rejL => exact rawRej_settlement_pending r s hp
          | userL uid => exact absurd hq (by intro hco; exact nomatch hco)
        rw [fireFold_settlement_stable r l (fireOne r s q)
              (by rw [h1]; intro hco; exact nomatch hco), h1]
      · have h1 : (fireOne r s q).settlement = s.settlement := by
          obtain ⟨a, k⟩ := q
          cases k with
          | rejL => exact absurd rfl hq
          | userL uid => rfl
        have he' : ∃ p ∈ l, p.2 = LKind.rejL := by
          obtain ⟨p, hm, hk⟩ := he
          rcases List.mem_cons.mp hm with h | h
          · rw [h] at hk; exact absurd hk hq
          · exact ⟨p, h, hk⟩
        exact ih (fireOne r s q) (by rw [h1]; exact hp) he'

theorem fireFold_settlement_none (r : Val) (l : List (Nat × LKind)) :
    ∀ s : RootState, (∀ p ∈ l, p.2 ≠ LKind.rejL) →
      (l.foldl (fireOne r) s).settlement = s.settlement := by
  induction l with
  | nil => intro s _; rfl
  | cons q l ih =>
      intro s h
      have hq : q.2 ≠ LKind.rejL := h q (List.mem_cons_self q l)
      have h1 : (fireOne r s q).settlement = s.settlement := by
        obtain ⟨a, k⟩ := q
        cases k with
        | rejL => exact absurd rfl hq
        | userL uid => rfl
      rw [List.foldl_cons, ih (fireOne r s q) (fun p hm => h p (List.mem_cons_of_mem q hm)), h1]

theorem runCleanup1_settlement (s : RootState) (c : CleanupK) :
    (runCleanup1 s c).settlement = s.settlement := by
  unfold runCleanup1; cases c <;> rfl

theorem runCleanup1_abortedR (s : RootState) (c : CleanupK) :
    (runCleanup1 s c).abortedR = s.abortedR := by
  unfold runCleanup1; cases c <;> rfl

theorem runCleanup1_cleanupFns (s : RootState) (c : CleanupK) :
    (runCleanup1 s c).cleanupFns = s.cleanupFns := by
  unfold runCleanup1; cases c <;> rfl

theorem runCleanup1_log (s : RootState) (c : CleanupK) :
    (runCleanup1 s c).cleanupLog = s.cleanupLog ++ [c] := by
  unfold runCleanup1; cases c <;> rfl

theorem cleanFold_settlement (l : List CleanupK) (s : RootState) :
    (l.foldl runCleanup1 s).settlement = s.settlement :=
  foldl_fix runCleanup1 (fun u => u.settlement) runCleanup1_settlement l s

theorem cleanFold_abortedR (l : List CleanupK) (s : RootState) :
    (l.foldl runCleanup1 s).abortedR = s.abortedR :=
  foldl_fix runCleanup1 (fun u => u.abortedR) runCleanup1_abortedR l s

theorem cleanFold_cleanupFns (l : List CleanupK) (s : RootState) :
    (l.foldl runCleanup1 s).cleanupFns = s.cleanupFns :=
  foldl_fix runCleanup1 (fun u => u.cleanupFns) runCleanup1_cleanupFns l s

theorem cleanFold_log (l : List CleanupK) :
    ∀ s : RootState, (l.foldl runCleanup1 s).cleanupLog = s.cleanupLog ++ l := by
  induction l with
  | nil => intro s; simp
  | cons c l ih =>
      intro s
      rw [List.foldl_cons, ih (runCleanup1 s c), runCleanup1_log]
      simp

theorem abortFn_of_some (r r0 : Val) (s : RootState) (h : s.abortedR = some r0) :
    abortFn r s = s := by
  unfold abortFn; rw [h]

theorem abortFn_of_isSome (r : Val) (s : RootState) (h : s.abortedR.isSome = true) :
    abortFn r s = s := by
  cases hs : s.abortedR with
  | none => rw [hs] at h; exact nomatch h
  | some r0 => exact abortFn_of_some r r0 s hs

theorem abortFn_none_eq (r : Val) (s : RootState) (h : s.abortedR = none) :
    abortFn r s = fireListeners r { s with abortedR := some r } := by
  unfold abortFn; rw [h]

theorem abortFn_abortedR_none (r : Val) (s : RootState) (h : s.abortedR = none) :
    (abortFn r s).abortedR = some r := by
  rw [abortFn_none_eq r s h]
  unfold fireListeners
  rw [fireFold_abortedR]

theorem abortFn_listeners (r : Val) (s : RootState) :
    (abortFn r s).listeners = s.listeners := by
  cases hs : s.abortedR with
  | some r0 => rw [abortFn_of_some r r0 s hs]
  | none =>
      rw [abortFn_none_eq r s hs]
      unfold fireListeners
      rw [fireFold_listeners]

theorem abortFn_cleanupFns (r : Val) (s : RootState) :
    (abortFn r s).cleanupFns = s.cleanupFns := by
  cases hs : s.abortedR with
  | some r0 => rw [abortFn_of_some r r0 s hs]
  | none =>
      rw [abortFn_none_eq r s hs]
      unfold fireListeners
      rw [fireFold_cleanupFns]

theorem abortFn_cleanupLog (r : Val) (s : RootState) :
    (abortFn r s).cleanupLog = s.cleanupLog := by
  cases hs : s.abortedR with
  | some r0 => rw [abortFn_of_some r r0 s hs]
  | none =>
      rw [abortFn_none_eq r s hs]
      unfold fireListeners
      rw [fireFold_cleanupLog]

theorem abortFn_settlement_stable (r : Val) (s : RootState)
    (h : s.settlement ≠ Settlement.pending) :
    (abortFn r s).settlement = s.settlement := by
  cases hs : s.abortedR with
  | some r0 => rw [abortFn_of_some r r0 s hs]
  | none =>
      rw [abortFn_none_eq r s hs]
      unfold fireListeners
      exact fireFold_settlement_stable r _ _ h

theorem abortFn_settles (r : Val) (s : RootState) (h1 : s.abortedR = none)
    (h2 : s.settlement = Settlement.pending) (h3 : hasRejL s) :
    (abortFn r s).settlement = Settlement.rejected r := by
  rw [abortFn_none_eq r s h1]
  unfold fireListeners
  exact fireFold_settlement_rejL r _ _ h2 h3

theorem abortFn_settlement_noRejL (r : Val) (s : RootState)
    (h1 : s.abortedR = none) (h3 : noRejL s) :
    (abortFn r s).settlement = s.settlement := by
  rw [abortFn_none_eq r s h1]
  unfold fireListeners
  exact fireFold_settlement_none r _ _ h3

theorem rejectFn_settlement_of_pending (r : Val) (s : RootState)
    (h : s.settlement = Settlement.pending) :
    (rejectFn r s).settlement = Settlement.rejected r := by
  unfold rejectFn runCleanups
  rw [cleanFold_settlement]
  have h1 : (rawRej r s).settlement = Settlement.rejected r :=
    rawRej_settlement_pending r s h
  rw [abortFn_settlement_stable r (rawRej r s) (by rw [h1]; intro hc; exact nomatch hc), h1]

theorem rejectFn_abortedR_of_none (r : Val) (s : RootState) (h : s.abortedR = none) :
    (rejectFn r s).abortedR = some r := by
  unfold rejectFn runCleanups
  rw [cleanFold_abortedR]
  exact abortFn_abortedR_none r (rawRej r s) (by rw [rawRej_abortedR]; exact h)

theorem rejectFn_cleanupLog (r : Val) (s : RootState) :
    (rejectFn r s).cleanupLog = s.cleanupLog ++ s.cleanupFns := by
  unfold rejectFn runCleanups
  rw [cleanFold_log, abortFn_cleanupLog, abortFn_cleanupFns, rawRej_cleanupLog,
    rawRej_cleanupFns]

theorem rejectFn_cleanupFns (r : Val) (s : RootState) :
    (rejectFn r s).cleanupFns = s.cleanupFns := by
  unfold rejectFn runCleanups
  rw [cleanFold_cleanupFns, abortFn_cleanupFns, rawRej_cleanupFns]

theorem resolveFn_settlement_of_pending (v : Val) (s : RootState)
    (h : s.settlement = Settlement.pending) :
    (resolveFn v s).settlement = Settlement.fulfilled v := by
  unfold resolveFn runCleanups
  rw [cleanFold_settlement]
  have h1 : (rawRes v s).settlement = Settlement.fulfilled v :=
    rawRes_settlement_pending v s h
  rw [abortFn_settlement_stable (withResolved v) (rawRes v s)
        (by rw [h1]; intro hc; exact nomatch hc), h1]

theorem resolveFn_abortedR_of_none (v : Val) (s : RootState) (h : s.abortedR = none) :
    (resolveFn v s).abortedR = some (withResolved v) := by
  unfold resolveFn runCleanups
  rw [cleanFold_abortedR]
  exact abortFn_abortedR_none (withResolved v) (rawRes v s) (by rw [rawRes_abortedR]; exact h)

theorem resolveFn_cleanupLog (v : Val) (s : RootState) :
    (resolveFn v s).cleanupLog = s.cleanupLog ++ s.cleanupFns := by
  unfold resolveFn runCleanups
  rw [cleanFold_log, abortFn_cleanupLog, abortFn_cleanupFns, rawRes_cleanupLog,
    rawRes_cleanupFns]

theorem resolvedCtx_of_tag (v : Val) (s : RootState)
    (h : s.abortedR = some (Val.resolvedTag v)) : resolvedCtx s = some v := by
  unfold resolvedCtx abortReason
  rw [h]
  rfl

theorem runExec_none (s : RootState) : runExec none s = s := rfl

theorem wireRejectOnAbort_settlement (o : PromiseOptions) (s : RootState) :
    (wireRejectOnAbort o s).settlement = s.settlement := by
  unfold wireRejectOnAbort; split <;> rfl

theorem wireRejectOnAbort_abortedR (o : PromiseOptions) (s : RootState) :
    (wireRejectOnAbort o s).abortedR = s.abortedR := by
  unfold wireRejectOnAbort; split <;> rfl

theorem wireRejectOnAbort_of_false (o : PromiseOptions) (s : RootState)
    (h : o.rejectOnAbort = false) : wireRejectOnAbort o s = s := by
  simp [wireRejectOnAbort, h]

theorem wireTimeout_settlement (o : PromiseOptions) (s : RootState) :
    (wireTimeout o s).settlement = s.settlement := by
  unfold wireTimeout
  split
  · rfl
  · split <;> rfl

theorem wireTimeout_abortedR (o : PromiseOptions) (s : RootState) :
    (wireTimeout o s).abortedR = s.abortedR := by
  unfold wireTimeout
  split
  · rfl
  · split <;> rfl

theorem wireTimeout_listeners (o : PromiseOptions) (s : RootState) :
    (wireTimeout o s).listeners = s.listeners := by
  unfold wireTimeout
  split
  · rfl
  · split <;> rfl

theorem construct_sig_none (exec : Option ExecutorM) (opts : PromiseOptions)
    (h : opts.abortSignal = none) :
    construct exec opts = runExec exec (wireTimeout opts (wireRejectOnAbort opts initState)) := by
  unfold construct; rw [h]

theorem construct_sig_live (exec : Option ExecutorM) (opts : PromiseOptions)
    (ext : ExtSig) (h : opts.abortSignal = some ext) (h2 : ext.abortedReason = none) :
    construct exec opts
      = runExec exec (wireTimeout opts (wireRejectOnAbort opts (attachBridge initState))) := by
  unfold construct; rw [h]; dsimp only; rw [h2]

theorem construct_sig_pre_reject (exec : Option ExecutorM) (opts : PromiseOptions)
    (ext : ExtSig) (r : Val) (h : opts.abortSignal = some ext)
    (h2 : ext.abortedReason = some r) (h3 : opts.rejectOnAbort = true) :
    construct exec opts = rejectFn r initState := by
  unfold construct; rw [h]; dsimp only; rw [h2]; dsimp only; rw [h3]; simp

theorem construct_sig_pre_abort (exec : Option ExecutorM) (opts : PromiseOptions)
    (ext : ExtSig) (r : Val) (h : opts.abortSignal = some ext)
    (h2 : ext.abortedReason = some r) (h3 : opts.rejectOnAbort = false) :
    construct exec opts
      = runExec exec (wireTimeout opts (wireRejectOnAbort opts (abortFn r initState))) := by
  unfold construct; rw [h]; dsimp only; rw [h2]; dsimp only; rw [h3]; simp

theorem construct_listeners_of_noRejectOnAbort (opts : PromiseOptions)
    (h : opts.rejectOnAbort = false) :
    (construct none opts).listeners = [] := by
  cases hs : opts.abortSignal with
  | none =>
      rw [construct_sig_none none opts hs, runExec_none, wireTimeout_listeners,
        wireRejectOnAbort_of_false opts _ h]
      rfl
  | some ext =>
      cases he : ext.abortedReason with
      | none =>
          rw [construct_sig_live none opts ext hs he, runExec_none, wireTimeout_listeners,
            wireRejectOnAbort_of_false opts _ h]
          rfl
      | some r =>
          rw [construct_sig_pre_abort none opts ext r hs he h, runExec_none,
            wireTimeout_listeners, wireRejectOnAbort_of_false opts _ h, abortFn_listeners]
          rfl

theorem rawRes_executorInvoked (v : Val) (s : RootState) :
    (rawRes v s).executorInvoked = s.executorInvoked := by
  unfold rawRes; split <;> rfl

theorem rawRej_executorInvoked (r : Val) (s : RootState) :
    (rawRej r s).executorInvoked = s.executorInvoked := by
  unfold rawRej; split <;> rfl

theorem fireOne_executorInvoked (r : Val) (s : RootState) (p : Nat × LKind) :
    (fireOne r s p).executorInvoked = s.executorInvoked := by
  obtain ⟨a, k⟩ := p
  cases k with
  | rejL => exact rawRej_executorInvoked r s
  | userL uid => rfl

theorem runCleanup1_executorInvoked (s : RootState) (c : CleanupK) :
    (runCleanup1 s c).executorInvoked = s.executorInvoked := by
  unfold runCleanup1; cases c <;> rfl

theorem abortFn_executorInvoked (r : Val) (s : RootState) :
    (abortFn r s).executorInvoked = s.executorInvoked := by
  cases hs : s.abortedR with
  | some r0 => rw [abortFn_of_some r r0 s hs]
  | none =>
      rw [abortFn_none_eq r s hs]
      unfold fireListeners
      rw [foldl_fix (fireOne r) (fun u => u.executorInvoked)
            (fun u p => fireOne_executorInvoked r u p)]

theorem rejectFn_executorInvoked (r : Val) (s : RootState) :
    (rejectFn r s).executorInvoked = s.executorInvoked := by
  unfold rejectFn runCleanups
  rw [foldl_fix runCleanup1 (fun u => u.executorInvoked) runCleanup1_executorInvoked,
    abortFn_executorInvoked, rawRej_executorInvoked]

theorem extFire_on (r : Val) (s : RootState) (h : s.bridged = true) :
    extFire r s = abortFn r s := by
  unfold extFire; rw [h]; exact if_pos rfl

theorem timerFire_on (s : RootState) (h : s.timerActive = true) :
    timerFire s = abortFn (Val.timeoutErr s.timerDur) { s with timerActive := false } := by
  unfold timerFire; rw [h]; exact if_pos rfl

theorem innerRejects_on (r : Val) (s : RootState) (h : s.innerAttached = true) :
    innerRejects r s = rejectFn r s := by
  unfold innerRejects; rw [h]; exact if_pos rfl

theorem wireTimeout_on (o : PromiseOptions) (s : RootState) (t : Int)
    (h : o.timeout = some t) (ht : ¬ t = 0) :
    wireTimeout o s = { s with
      timerActive := true,
      timerDur := t,
      cleanupFns := s.cleanupFns ++ [CleanupK.cancelTimer] } := by
  unfold wireTimeout; rw [h]; dsimp only; rw [if_neg ht]

theorem applyStep_ctrl (fresh : Nat) (p : ChainTask) (d : ChainStepD) :
    (applyStep fresh p d).ctrl = p.ctrl := by
  cases d <;> rfl

theorem applyChain_ctrl (ds : List ChainStepD) :
    ∀ (fresh : Nat) (p : ChainTask), (applyChain fresh p ds).ctrl = p.ctrl := by
  induction ds with
  | nil => intro fresh p; rfl
  | cons d ds ih =>
      intro fresh p
      show (applyChain (fresh + 1) (applyStep fresh p d) ds).ctrl = p.ctrl
      rw [ih (fresh + 1) (applyStep fresh p d), applyStep_ctrl]

/-! ## Claims -/

/-- C1: for every task and every task derived from it by a chaining
operation (`then`, `catch`, `finally`), transitively to any depth, the
derived task's `abort` and `reject` operations are the root task's
operations (its `ctrl` closure id stays the root's); in particular, with
default configuration, `chained = root.then(x => x + 1)` followed by
`chained.abort("stop")` — which runs the root's `abort` closure — causes the
root to reject with `"stop"`, and `chained` settles following the root's
outcome (rejected `"stop"`), not independently. -/
theorem c1_chain_control_is_root :
    (∀ (rid fresh : Nat) (ds : List ChainStepD),
        (applyChain fresh (rootTask rid) ds).ctrl = (rootTask rid).ctrl)
    ∧ (thenC 1 (rootTask 0) (some incHandler) none).ctrl = (rootTask 0).ctrl
    ∧ (abortFn (Val.str ("stop")) (construct none {})).settlement
        = Settlement.rejected (Val.str ("stop"))
    ∧ settleOf (thenC 1 (rootTask 0) (some incHandler) none)
        (abortFn (Val.str ("stop")) (construct none {}))
        = Settlement.rejected (Val.str ("stop")) := by
  refine ⟨fun rid fresh ds => applyChain_ctrl ds fresh (rootTask rid), rfl, by decide, rfl⟩

/-- C2: when `rejectOnAbort` is true (so the `rejL` listener is registered),
every abort — explicit `abort` call, elapsed timer, bridged external
signal — rejects the settlement with the abort reason while the task is
pending; if the task already settled via fulfillment the rejection is a
no-op; and an abort on an already-aborted task changes nothing at all. -/
theorem c2_abort_rejects_settlement (s : RootState) (r v r0 : Val) (hL : hasRejL s) :
    (s.abortedR = none → s.settlement = Settlement.pending →
      (abortFn r s).settlement = Settlement.rejected r
      ∧ (s.bridged = true → (extFire r s).settlement = Settlement.rejected r)
      ∧ (s.timerActive = true →
          (timerFire s).settlement = Settlement.rejected (Val.timeoutErr s.timerDur)))
    ∧ (s.abortedR = none → s.settlement = Settlement.fulfilled v →
        (abortFn r s).settlement = Settlement.fulfilled v)
    ∧ (s.abortedR = some r0 → abortFn r s = s) := by
  refine ⟨fun hna hp => ⟨abortFn_settles r s hna hp hL, fun hb => ?_, fun ht => ?_⟩,
    fun hna hf => ?_, fun hs => abortFn_of_some r r0 s hs⟩
  · rw [extFire_on r s hb]
    exact abortFn_settles r s hna hp hL
  · rw [timerFire_on s ht]
    exact abortFn_settles (Val.timeoutErr s.timerDur) { s with timerActive := false } hna hp hL
  · rw [abortFn_settlement_stable r s (by rw [hf]; exact fun hc => nomatch hc), hf]

/-- C2 witness: a concretely constructed task (bridged external signal,
50ms timeout, default `rejectOnAbort`) rejects with the abort reason on an
explicit abort, on the external signal firing, and on timer expiry. -/
theorem c2_abort_rejects_settlement_witness :
    (abortFn (Val.str ("x"))
        (construct none { abortSignal := some { abortedReason := none }, timeout := some 50 })).settlement
      = Settlement.rejected (Val.str ("x"))
    ∧ (extFire (Val.str ("x"))
        (construct none { abortSignal := some { abortedReason := none }, timeout := some 50 })).settlement
      = Settlement.rejected (Val.str ("x"))
    ∧ (timerFire
        (construct none { abortSignal := some { abortedReason := none }, timeout := some 50 })).settlement
      = Settlement.rejected (Val.timeoutErr 50) := by
  have h := (c2_abort_rejects_settlement
      (construct none { abortSignal := some { abortedReason := none }, timeout := some 50 })
      (Val.str ("x")) Val.undef Val.undef (by decide)).1 (by decide) (by decide)
  exact ⟨h.1, h.2.1 (by decide), (h.2.2 (by decide)).trans (by decide)⟩

/-- C3 counterexample: the claim says cleanup actions run exactly once over
the task's lifetime and the list is then cleared, so that repeated calls to
`reject` cannot run them more than once.  On a default task (whose single
registered cleanup is the detachment of the `rejectOnAbort` listener,
id 0), calling the task's `reject` twice executes that cleanup twice —
`withCleanup` drains `cleanupFns` on every call and never clears the list.
Moreover settling the task purely through `abort` (the `rejL` listener uses
the raw `rej`, not the wrapped one) runs the cleanups zero times. -/
theorem c3_counterexample :
    (rejectFn (Val.str ("b")) (rejectFn (Val.str ("a")) (construct none {}))).cleanupLog
      = [CleanupK.detachL 0, CleanupK.detachL 0]
    ∧ (abortFn (Val.str ("x")) (construct none {})).settlement
        = Settlement.rejected (Val.str ("x"))
    ∧ (abortFn (Val.str ("x")) (construct none {})).cleanupLog = [] := by
  refine ⟨by decide, by decide, by decide⟩

/-- C3 amended: each invocation of a wrapped settle operation (the enhanced
`reject`, i.e. the task's `reject` method) synchronously executes every
currently registered cleanup action once, in registration order, after the
underlying settlement attempt; the cleanup list is NOT cleared, so a later
wrapped call drains it again; and a settlement reached through `abort`
alone (via the `rejectOnAbort` listener) executes no cleanup action. -/
theorem c3_amended_cleanup_drain (s : RootState) (r : Val) :
    (rejectFn r s).cleanupLog = s.cleanupLog ++ s.cleanupFns
    ∧ (rejectFn r s).cleanupFns = s.cleanupFns
    ∧ (abortFn r s).cleanupLog = s.cleanupLog :=
  ⟨rejectFn_cleanupLog r s, rejectFn_cleanupFns r s, abortFn_cleanupLog r s⟩

/-- C4: the `resolve` and `reject` callbacks passed to the work function,
called on a pending, not-yet-aborted task, perform the settlement, run every
registered cleanup action exactly once (in order), and abort the
coordinator — fulfillment with the tagged resolved-value reason carrying the
value (observable through `resolved()`), rejection with the rejection reason
itself. -/
theorem c4_enhanced_settlers (s : RootState) (v r : Val)
    (hp : s.settlement = Settlement.pending) (hna : s.abortedR = none) :
    (resolveFn v s).settlement = Settlement.fulfilled v
    ∧ (resolveFn v s).abortedR = some (withResolved v)
    ∧ resolvedCtx (resolveFn v s) = some v
    ∧ (resolveFn v s).cleanupLog = s.cleanupLog ++ s.cleanupFns
    ∧ (rejectFn r s).settlement = Settlement.rejected r
    ∧ (rejectFn r s).abortedR = some r
    ∧ (rejectFn r s).cleanupLog = s.cleanupLog ++ s.cleanupFns :=
  ⟨resolveFn_settlement_of_pending v s hp,
   resolveFn_abortedR_of_none v s hna,
   resolvedCtx_of_tag v _ (resolveFn_abortedR_of_none v s hna),
   resolveFn_cleanupLog v s,
   rejectFn_settlement_of_pending r s hp,
   rejectFn_abortedR_of_none r s hna,
   rejectFn_cleanupLog r s⟩

/-- C4 witness: on a default-constructed task, the wrapped resolve fulfills
with the value and aborts with the tagged reason, the wrapped reject rejects
and aborts with the reason, and each runs the single registered cleanup
once. -/
theorem c4_enhanced_settlers_witness :
    (resolveFn (Val.num 5) (construct none {})).settlement = Settlement.fulfilled (Val.num 5)
    ∧ (resolveFn (Val.num 5) (construct none {})).abortedR
        = some (withResolved (Val.num 5))
    ∧ (resolveFn (Val.num 5) (construct none {})).cleanupLog = [CleanupK.detachL 0]
    ∧ (rejectFn (Val.str ("e")) (construct none {})).settlement
        = Settlement.rejected (Val.str ("e")) := by
  have h := c4_enhanced_settlers (construct none {}) (Val.num 5) (Val.str ("e"))
      (by decide) (by decide)
  exact ⟨h.1, h.2.1, (h.2.2.2.1).trans (by decide), h.2.2.2.2.1⟩

/-- C5 counterexample: the claim asserts that with an already-aborted
external signal and default configuration the work function runs and its
execution context shows `isAborted() = true` from its first synchronous
check.  In fact the constructor executes `return reject(reason)` before the
executor call, so the work function is never invoked at all. -/
theorem c5_counterexample :
    ¬ ((construct (some execTriv)
        { abortSignal := some { abortedReason := some (Val.str ("pre")) } }).executorInvoked
      = true) := by decide

/-- C5 amended: if the configured `abortSignal` is already aborted with
reason `r` at construction time and `rejectOnAbort` is true, the task is
immediately rejected with `r` and the internal signal is aborted with `r`,
but the work function is never invoked (there is no execution-context
check). -/
theorem c5_amended_pre_aborted_signal (exec : Option ExecutorM) (opts : PromiseOptions)
    (ext : ExtSig) (r : Val) (h : opts.abortSignal = some ext)
    (h2 : ext.abortedReason = some r) (h3 : opts.rejectOnAbort = true) :
    (construct exec opts).settlement = Settlement.rejected r
    ∧ isAborted (construct exec opts) = true
    ∧ abortReason (construct exec opts) = r
    ∧ (construct exec opts).executorInvoked = false := by
  rw [construct_sig_pre_reject exec opts ext r h h2 h3]
  refine ⟨rejectFn_settlement_of_pending r initState rfl, ?_, ?_, ?_⟩
  · unfold isAborted
    rw [rejectFn_abortedR_of_none r initState rfl]
    rfl
  · unfold abortReason
    rw [rejectFn_abortedR_of_none r initState rfl]
    rfl
  · rw [rejectFn_executorInvoked]
    rfl

/-- C5 witness: an already-aborted signal with reason `"pre"` and default
configuration immediately rejects with `"pre"` and never invokes the
executor. -/
theorem c5_amended_pre_aborted_signal_witness :
    (construct (some execTriv)
        { abortSignal := some { abortedReason := some (Val.str ("pre")) } }).settlement
      = Settlement.rejected (Val.str ("pre"))
    ∧ (construct (some execTriv)
        { abortSignal := some { abortedReason := some (Val.str ("pre")) } }).executorInvoked
      = false := by
  have h := c5_amended_pre_aborted_signal (some execTriv)
      { abortSignal := some { abortedReason := some (Val.str ("pre")) } }
      { abortedReason := some (Val.str ("pre")) } (Val.str ("pre")) rfl rfl rfl
  exact ⟨h.1, h.2.2.2⟩

/-- C6 counterexample: the claim says a listener registered through
`onAborted` on an already-aborted task fires immediately with the abort
reason.  On a default task aborted with `"x"`, registering the user
listener 7 afterwards never fires it: its invocation never appears in the
fired-listener log (`addEventListener` on an already-aborted signal never
dispatches). -/
theorem c6_counterexample :
    ¬ ((7, Val.str ("x"))
        ∈ (ctxOnAborted 7 (abortFn (Val.str ("x")) (construct none {}))).firedLog) := by
  decide

/-- C6 amended: registering a listener via `onAborted` on an already-aborted
task does not invoke it — neither immediately (the fired-listener log is
unchanged) nor ever after (any further `abort` call on an aborted task is
the identity); the registration only appends the listener and pushes its
detachment onto the cleanup list. -/
theorem c6_amended_late_listener (s : RootState) (uid : Nat) (r : Val)
    (hA : s.abortedR.isSome = true) :
    (ctxOnAborted uid s).firedLog = s.firedLog
    ∧ (ctxOnAborted uid s).listeners = s.listeners ++ [(s.nextLid, LKind.userL uid)]
    ∧ (ctxOnAborted uid s).cleanupFns = s.cleanupFns ++ [CleanupK.detachL s.nextLid]
    ∧ abortFn r (ctxOnAborted uid s) = ctxOnAborted uid s := by
  exact ⟨rfl, rfl, rfl, abortFn_of_isSome r (ctxOnAborted uid s) hA⟩

/-- C6 witness: on a task aborted with `"x"`, registering listener 7 leaves
the fired-listener log empty and a later abort attempt changes nothing. -/
theorem c6_amended_late_listener_witness :
    (ctxOnAborted 7 (abortFn (Val.str ("x")) (construct none {}))).firedLog = []
    ∧ abortFn (Val.str ("y")) (ctxOnAborted 7 (abortFn (Val.str ("x")) (construct none {})))
        = ctxOnAborted 7 (abortFn (Val.str ("x")) (construct none {})) := by
  have h := c6_amended_late_listener (abortFn (Val.str ("x")) (construct none {})) 7
      (Val.str ("y")) (by decide)
  exact ⟨h.1.trans (by decide), h.2.2.2⟩

/-- C7: with `rejectOnAbort: false` no `rejL` listener exists, so `abort`
with reason `x` leaves the settlement exactly as it was (pending stays
pending), while the execution context afterwards reports
`isAborted() = true` and `abortReason() = x`; and any task constructed with
`rejectOnAbort := false` (and no executor) has no listeners at all, in
particular no `rejL`. -/
theorem c7_abort_without_reject (s : RootState) (x : Val)
    (hL : noRejL s) (hna : s.abortedR = none) :
    (abortFn x s).settlement = s.settlement
    ∧ isAborted (abortFn x s) = true
    ∧ abortReason (abortFn x s) = x
    ∧ (∀ opts : PromiseOptions, opts.rejectOnAbort = false →
        (construct none opts).listeners = []) := by
  refine ⟨abortFn_settlement_noRejL x s hna hL, ?_, ?_,
    fun opts h => construct_listeners_of_noRejectOnAbort opts h⟩
  · unfold isAborted
    rw [abortFn_abortedR_none x s hna]
    rfl
  · unfold abortReason
    rw [abortFn_abortedR_none x s hna]
    rfl

/-- C7 witness: `new Task(fn, { rejectOnAbort: false })` then `abort("x")`:
the task stays pending while the context reports aborted with `"x"`. -/
theorem c7_abort_without_reject_witness :
    (abortFn (Val.str ("x")) (construct none { rejectOnAbort := false })).settlement
      = Settlement.pending
    ∧ isAborted (abortFn (Val.str ("x")) (construct none { rejectOnAbort := false })) = true
    ∧ abortReason (abortFn (Val.str ("x")) (construct none { rejectOnAbort := false }))
      = Val.str ("x") := by
  have h := c7_abort_without_reject (construct none { rejectOnAbort := false })
      (Val.str ("x")) (by decide) (by decide)
  exact ⟨h.1.trans (by decide), h.2.1, h.2.2.1⟩

/-- C8 counterexample: the claim says the Timeout Guard is started exactly
when the configured timeout is set and positive.  The source only checks
truthiness (`if (timeout)`), so the guard is also started for the negative
duration `-1`, refuting the "exactly when positive" biconditional. -/
theorem c8_counterexample :
    ¬ (((construct none { timeout := some (-1) }).timerActive = true) ↔ (0 : Int) < -1) := by
  decide

/-- C8 amended: the Timeout Guard is started exactly when the configured
timeout is set and nonzero (negative durations start it too): for nonzero
`t` the timer is armed with duration `t` and its cancellation is pushed onto
the cleanup list, while a zero or absent timeout arms nothing; and when the
armed timer fires on a pending, not-yet-aborted task (with the default
`rejectOnAbort` listener registered) the task is aborted — hence rejected —
with the timeout-kind reason carrying the configured duration. -/
theorem c8_amended_timeout_guard (t : Int) (s : RootState) (ht : ¬ t = 0)
    (hL : hasRejL s) (hp : s.settlement = Settlement.pending)
    (hna : s.abortedR = none) (hta : s.timerActive = true) :
    (construct none { timeout := some t }).timerActive = true
    ∧ (construct none { timeout := some t }).timerDur = t
    ∧ CleanupK.cancelTimer ∈ (construct none { timeout := some t }).cleanupFns
    ∧ (construct none { timeout := some 0 }).timerActive = false
    ∧ (construct none {}).timerActive = false
    ∧ (timerFire s).settlement = Settlement.rejected (Val.timeoutErr s.timerDur)
    ∧ isAborted (timerFire s) = true := by
  have hc : construct none { timeout := some t }
      = { wireRejectOnAbort { timeout := some t } initState with
          timerActive := true,
          timerDur := t,
          cleanupFns := (wireRejectOnAbort { timeout := some t } initState).cleanupFns
            ++ [CleanupK.cancelTimer] } := by
    rw [construct_sig_none none { timeout := some t } rfl, runExec_none,
      wireTimeout_on { timeout := some t } _ t rfl ht]
  refine ⟨by rw [hc], by rw [hc], ?_, by decide, by decide, ?_, ?_⟩
  · rw [hc]
    exact List.mem_append_right _ (List.mem_singleton.mpr rfl)
  · rw [timerFire_on s hta]
    exact abortFn_settles (Val.timeoutErr s.timerDur) { s with timerActive := false } hna hp hL
  · rw [timerFire_on s hta]
    unfold isAborted
    rw [abortFn_abortedR_none (Val.timeoutErr s.timerDur) { s with timerActive := false } hna]
    rfl

/-- C8 witness: a task with `timeout: 50` arms the guard, and its timer
firing rejects the task with the timeout fault carrying 50. -/
theorem c8_amended_timeout_guard_witness :
    (construct none { timeout := some 50 }).timerActive = true
    ∧ (timerFire (construct none { timeout := some 50 })).settlement
        = Settlement.rejected (Val.timeoutErr 50) := by
  have h := c8_amended_timeout_guard 50 (construct none { timeout := some 50 })
      (by decide) (by decide) (by decide) (by decide) (by decide)
  exact ⟨h.1, (h.2.2.2.2.2.1).trans (by decide)⟩

/-- C9: every work fault surfaces as the task's rejection: an executor that
throws `e` synchronously (leaving the state untouched) yields a task
rejected with `e`; an executor that returns a promise gets a failure
handler attached (`innerAttached`), and that inner promise's rejection with
`rI` rejects the task with `rI`. -/
theorem c9_work_faults_reject (opts : PromiseOptions) (e rI : Val) (f g : ExecutorM)
    (hsig : opts.abortSignal = none)
    (hf : ∀ u, f u = (u, ExecRet.thrown e))
    (hg : ∀ u, g u = (u, ExecRet.retPromise)) :
    (construct (some f) opts).settlement = Settlement.rejected e
    ∧ (construct (some g) opts).innerAttached = true
    ∧ (innerRejects rI (construct (some g) opts)).settlement = Settlement.rejected rI := by
  have hS : (wireTimeout opts (wireRejectOnAbort opts initState)).settlement
      = Settlement.pending := by
    rw [wireTimeout_settlement, wireRejectOnAbort_settlement]
    rfl
  have hC : construct (some g) opts
      = { wireTimeout opts (wireRejectOnAbort opts initState) with
          executorInvoked := true, innerAttached := true } := by
    rw [construct_sig_none (some g) opts hsig]
    unfold runExec
    dsimp only
    rw [hg]
  refine ⟨?_, by rw [hC], ?_⟩
  · rw [construct_sig_none (some f) opts hsig]
    unfold runExec
    dsimp only
    rw [hf]
    exact rejectFn_settlement_of_pending e _ hS
  · rw [hC, innerRejects_on rI _ rfl]
    exact rejectFn_settlement_of_pending rI _ hS

/-- C9 witness: a throwing executor rejects the default task with the thrown
value, and a returned inner promise's rejection rejects the task with the
inner reason. -/
theorem c9_work_faults_reject_witness :
    (construct (some (fun u => (u, ExecRet.thrown (Val.str ("boom"))))) {}).settlement
      = Settlement.rejected (Val.str ("boom"))
    ∧ (innerRejects (Val.str ("ir"))
        (construct (some (fun u => (u, ExecRet.retPromise))) {})).settlement
      = Settlement.rejected (Val.str ("ir")) := by
  have h := c9_work_faults_reject {} (Val.str ("boom")) (Val.str ("ir"))
      (fun u => (u, ExecRet.thrown (Val.str ("boom")))) (fun u => (u, ExecRet.retPromise))
      rfl (fun u => rfl) (fun u => rfl)
  exact ⟨h.1, h.2.2⟩

/-- C10: calling `reject(r)` on a task derived by chaining runs the root's
wrapped reject (the derived `ctrl` is the root's), so the root is rejected
with `r`; the outcome then flows through the chain's handlers, and when the
intermediate `catch` handler `h` recovers from `r` (returning `v`), the
derived task fulfills with `v` instead of rejecting. -/
theorem c10_derived_reject_flows_through_root (h : Handler) (r v : Val)
    (hh : h r = Except.ok v) :
    (catchC 1 (rootTask 0) h).ctrl = (rootTask 0).ctrl
    ∧ (rejectFn r (construct none {})).settlement = Settlement.rejected r
    ∧ settleOf (catchC 1 (rootTask 0) h) (rejectFn r (construct none {}))
        = Settlement.fulfilled v := by
  have hs : (rejectFn r (construct none {})).settlement = Settlement.rejected r :=
    rejectFn_settlement_of_pending r (construct none {}) (by decide)
  refine ⟨rfl, hs, ?_⟩
  unfold settleOf
  rw [hs]
  show ofExcept (h r) = Settlement.fulfilled v
  rw [hh]
  rfl

/-- C10 witness: with the recovery handler constantly returning 42,
rejecting through the derived task rejects the root with `"err"` while the
derived task fulfills with 42. -/
theorem c10_derived_reject_flows_through_root_witness :
    (rejectFn (Val.str ("err")) (construct none {})).settlement
      = Settlement.rejected (Val.str ("err"))
    ∧ settleOf (catchC 1 (rootTask 0) (fun _ => Except.ok (Val.num 42)))
        (rejectFn (Val.str ("err")) (construct none {}))
      = Settlement.fulfilled (Val.num 42) := by
  have h := c10_derived_reject_flows_through_root (fun _ => Except.ok (Val.num 42))
      (Val.str ("err")) (Val.num 42) rfl
  exact ⟨h.2.1, h.2.2⟩
